import Mathlib

/-!
# Shallow embedding of the outliner storage engine

This development embeds the data model and operations of the outliner
note-taking backend (`outliner_api_server/db/userdb.py` and
`outliner_api_server/db/sysdb.py`) and proves properties of them.

Modelling conventions:
* Each sqlite table is a list of rows; the FTS5 virtual tables
  (`pages_fts`, `blocks_fts`) are lists of index entries.
* Identifiers generated randomly by sqlite (`lower(hex(randomblob(16)))`)
  are supplied as explicit parameters (a randomness oracle).
* `created_at` timestamps are omitted: no operation reads them.
* Workspace colors are stored as the hex string after stripping the
  leading hash characters; the `bytes.fromhex` codec is a boundary
  conversion that no modelled property inspects.
* The FTS5 `MATCH` predicate is an engine oracle, passed to the search
  functions as a boolean predicate on the indexed text; `ORDER BY rank`
  is engine-defined, so results are produced in index order.
* Each operation returns the outcome together with the committed state,
  so that statements about the state after a *failed* call are faithful
  to the code (which sometimes commits index deletions before raising).
* Foreign keys are enforced (`PRAGMA foreign_keys = ON` is executed on the
  connection by `BaseDatabase.get_cursor`), and the `ON DELETE CASCADE`
  clauses of the `blocks` table are modelled by an explicit recursive
  cascade over the block list.
-/

structure WorkspaceModel where
  workspace_id : Nat
  name : String
  color : String
deriving DecidableEq, Repr

structure PageModel where
  page_id : String
  title : String
deriving DecidableEq, Repr

structure BlockModel where
  block_id : String
  content : String
  page_id : Option String
  parent_block_id : Option String
  position : Int
deriving DecidableEq, Repr

/-- A row of the `pages_fts` FTS5 table: the indexed title plus the
unindexed `page_id` tag. -/
structure PagesFtsRow where
  title : String
  page_id : String
deriving DecidableEq, Repr

/-- A row of the `blocks_fts` FTS5 table: the indexed content plus the
unindexed `block_id`, `page_id`, `parent_block_id` tags. -/
structure BlocksFtsRow where
  content : String
  block_id : String
  page_id : Option String
  parent_block_id : Option String
deriving DecidableEq, Repr

/-- The state of one user database file (tables of `UserDatabase`). -/
structure UserDB where
  workspaces : List WorkspaceModel
  pages : List PageModel
  blocks : List BlockModel
  pages_fts : List PagesFtsRow
  blocks_fts : List BlocksFtsRow
deriving DecidableEq, Repr

/-- The error kinds raised by the storage layer: the typed errors of
`db/errors.py`, the `ValueError` for a malformed parent specification, and
sqlite's untyped `IntegrityError` for constraint violations. -/
inductive DBError where
  | workspaceNotFound
  | pageNotFound
  | pageAlreadyExists
  | blockNotFound
  | invalidArgument
  | integrityError
  | userDatabaseNotFound
  | userDatabaseAlreadyExists
deriving DecidableEq, Repr

/-- Outcome of an operation: the result (or raised error) together with
the database state as committed when the call returns or raises. -/
abbrev DBResult (α : Type) := Except DBError α × UserDB

/-- The fresh database produced by `initialize_tables`: empty tables plus
the default workspace with id 0 (`_create_table_workspaces`). -/
def initDB : UserDB :=
  { workspaces := [⟨0, "Default", "4285F4"⟩]
    pages := []
    blocks := []
    pages_fts := []
    blocks_fts := [] }

/-- `str.lstrip('#')`: drop leading hash characters. -/
def stripHash (s : String) : String :=
  ⟨s.data.dropWhile (fun c => c = '#')⟩

-- ## Workspaces CRUD

/-- sqlite rowid allocation for an `INTEGER PRIMARY KEY` table without
`AUTOINCREMENT`: one more than the largest existing rowid. -/
def nextWorkspaceId (ws : List WorkspaceModel) : Nat :=
  (ws.foldl (fun m w => max m w.workspace_id) 0) + 1

/-- `UserDatabase.add_workspace`: inserts a row with an auto id and
returns the new id. -/
def add_workspace (db : UserDB) (name color : String) : DBResult Nat :=
  let wid := nextWorkspaceId db.workspaces
  (Except.ok wid,
   { db with workspaces := db.workspaces ++ [⟨wid, name, stripHash color⟩] })

/-- `UserDatabase.get_workspace_by_id`. -/
def get_workspace_by_id (db : UserDB) (wid : Nat) : Except DBError WorkspaceModel :=
  match db.workspaces.find? (fun w => w.workspace_id == wid) with
  | some w => Except.ok w
  | none => Except.error DBError.workspaceNotFound

/-- `UserDatabase.get_workspaces`: `SELECT ... FROM workspaces` without an
`ORDER BY`; sqlite scans the table b-tree in rowid order, i.e. returns
the stored row sequence. -/
def get_workspaces (db : UserDB) : List WorkspaceModel :=
  db.workspaces

/-- `UserDatabase.update_workspace`: updates name and color in place;
raises `WorkspaceNotFoundError` when no row matched (checked via
`rowcount` after the commit). -/
def update_workspace (db : UserDB) (wid : Nat) (new_name new_color : String) :
    DBResult Unit :=
  let matched := db.workspaces.filter (fun w => w.workspace_id == wid)
  let db' := { db with
    workspaces := db.workspaces.map (fun w =>
      if w.workspace_id == wid then
        { w with name := new_name, color := stripHash new_color }
      else w) }
  if matched.isEmpty then (Except.error DBError.workspaceNotFound, db')
  else (Except.ok (), db')

/-- `UserDatabase.delete_workspace`. -/
def delete_workspace (db : UserDB) (wid : Nat) : DBResult Unit :=
  let matched := db.workspaces.filter (fun w => w.workspace_id == wid)
  let db' := { db with
    workspaces := db.workspaces.filter (fun w => !(w.workspace_id == wid)) }
  if matched.isEmpty then (Except.error DBError.workspaceNotFound, db')
  else (Except.ok (), db')

-- ## Pages CRUD

/-- `UserDatabase.add_page`: rejects duplicate titles, then inserts the
page row (with a fresh random id, supplied here as `newId`) and its
`pages_fts` entry in one transaction.  A primary-key collision on the
generated id would surface as sqlite's `IntegrityError`. -/
def add_page (db : UserDB) (newId title : String) : DBResult String :=
  if db.pages.any (fun p => p.title == title) then
    (Except.error DBError.pageAlreadyExists, db)
  else if db.pages.any (fun p => p.page_id == newId) then
    (Except.error DBError.integrityError, db)
  else
    (Except.ok newId,
     { db with
        pages := db.pages ++ [⟨newId, title⟩]
        pages_fts := db.pages_fts ++ [⟨title, newId⟩] })

/-- `UserDatabase.get_page_by_id`. -/
def get_page_by_id (db : UserDB) (pid : String) : Except DBError PageModel :=
  match db.pages.find? (fun p => p.page_id == pid) with
  | some p => Except.ok p
  | none => Except.error DBError.pageNotFound

/-- `UserDatabase.get_pages`. -/
def get_pages (db : UserDB) : List PageModel :=
  db.pages

/-- `UserDatabase.rename_page`: first checks that no *different* page has
the new title (`PageAlreadyExistsError`), then that the page exists
(`PageNotFoundError`); only then deletes the old `pages_fts` entry,
updates the title, and re-inserts the index entry, committing once. -/
def rename_page (db : UserDB) (pid new_title : String) : DBResult Unit :=
  if db.pages.any (fun p => p.title == new_title && p.page_id != pid) then
    (Except.error DBError.pageAlreadyExists, db)
  else if db.pages.all (fun p => p.page_id != pid) then
    (Except.error DBError.pageNotFound, db)
  else
    (Except.ok (),
     { db with
        pages := db.pages.map (fun p =>
          if p.page_id == pid then { p with title := new_title } else p)
        pages_fts :=
          db.pages_fts.filter (fun e => !(e.page_id == pid)) ++ [⟨new_title, pid⟩] })

-- ## Block cascade (FOREIGN KEY ... ON DELETE CASCADE)

/-- Whether a block's `parent_block_id` points into the set of already
deleted blocks. -/
def parentDead (dead : List String) (b : BlockModel) : Bool :=
  match b.parent_block_id with
  | some p => dead.contains p
  | none => false

/-- One round of the recursive cascade: blocks of `pool` whose parent is
already dead are moved into the dead set; iteration stops when no block
moves.  `fuel` only bounds the recursion; `pool.length` rounds always
suffice because each productive round shrinks the pool. -/
def collectDeadAux : Nat → List BlockModel → List String → List String
  | 0, _, dead => dead
  | fuel + 1, pool, dead =>
    let moved := pool.filter (fun b => parentDead dead b)
    if moved.isEmpty then dead
    else
      collectDeadAux fuel (pool.filter (fun b => !parentDead dead b))
        (dead ++ moved.map (fun b => b.block_id))

/-- The ids of all blocks deleted by a cascade seeded with `dead`:
the seed rows plus, recursively, every block whose `parent_block_id`
chain leads into the seed. -/
def collectDead (pool : List BlockModel) (dead : List String) : List String :=
  collectDeadAux pool.length pool dead

/-- `UserDatabase.delete_page`: deletes the `pages_fts` entry, then the
page row; the `ON DELETE CASCADE` constraints delete every block anchored
(directly or transitively) to the page.  `rowcount` of the page delete is
checked only after the commit, so the `pages_fts` deletion persists even
when the page is absent. -/
def delete_page (db : UserDB) (pid : String) : DBResult Unit :=
  let fts' := db.pages_fts.filter (fun e => !(e.page_id == pid))
  if db.pages.any (fun p => p.page_id == pid) then
    let seed := (db.blocks.filter (fun b => b.page_id == some pid)).map
      (fun b => b.block_id)
    let dead := collectDead db.blocks seed
    (Except.ok (),
     { db with
        pages := db.pages.filter (fun p => !(p.page_id == pid))
        pages_fts := fts'
        blocks := db.blocks.filter (fun b =>
          !(b.page_id == some pid) && !(dead.contains b.block_id)) })
  else
    (Except.error DBError.pageNotFound, { db with pages_fts := fts' })

/-- `UserDatabase.delete_block`: deletes the block's own `blocks_fts`
entry and its row; descendants are removed by the cascade (their
`blocks_fts` entries are not touched).  Not-found is detected from
`rowcount` after the commit. -/
def delete_block (db : UserDB) (bid : String) : DBResult Unit :=
  let fts' := db.blocks_fts.filter (fun e => !(e.block_id == bid))
  if db.blocks.any (fun b => b.block_id == bid) then
    let dead := collectDead db.blocks [bid]
    (Except.ok (),
     { db with
        blocks := db.blocks.filter (fun b => !(dead.contains b.block_id))
        blocks_fts := fts' })
  else
    (Except.error DBError.blockNotFound, { db with blocks_fts := fts' })

-- ## Blocks CRUD

/-- `UserDatabase.add_block`: exactly one of `page_id`/`parent_block_id`
must be supplied, else `ValueError` is raised before anything executes.
Otherwise the block row is inserted (fresh random id supplied as `newId`)
together with its `blocks_fts` entry; a foreign-key violation (absent
page or parent block) or a primary-key collision raises sqlite's
`IntegrityError` before the commit, leaving the state unchanged. -/
def add_block (db : UserDB) (newId content : String) (position : Int)
    (page_id parent_block_id : Option String) : DBResult String :=
  match page_id, parent_block_id with
  | some pid, none =>
    if db.pages.any (fun p => p.page_id == pid)
        && db.blocks.all (fun b => b.block_id != newId) then
      (Except.ok newId,
       { db with
          blocks := db.blocks ++ [⟨newId, content, some pid, none, position⟩]
          blocks_fts := db.blocks_fts ++ [⟨content, newId, some pid, none⟩] })
    else (Except.error DBError.integrityError, db)
  | none, some pbid =>
    if db.blocks.any (fun b => b.block_id == pbid)
        && db.blocks.all (fun b => b.block_id != newId) then
      (Except.ok newId,
       { db with
          blocks := db.blocks ++ [⟨newId, content, none, some pbid, position⟩]
          blocks_fts := db.blocks_fts ++ [⟨content, newId, none, some pbid⟩] })
    else (Except.error DBError.integrityError, db)
  | _, _ => (Except.error DBError.invalidArgument, db)

/-- `UserDatabase.get_blocks_by_page`: direct children of the page only. -/
def get_blocks_by_page (db : UserDB) (pid : String) : List BlockModel :=
  db.blocks.filter (fun b => b.page_id == some pid)

/-- `UserDatabase.get_block_content_by_id`. -/
def get_block_content_by_id (db : UserDB) (bid : String) :
    Except DBError BlockModel :=
  match db.blocks.find? (fun b => b.block_id == bid) with
  | some b => Except.ok b
  | none => Except.error DBError.blockNotFound

/-- `UserDatabase.update_block_content`: verifies existence first
(`BlockNotFoundError`), then deletes the old `blocks_fts` entry, updates
the row, and re-inserts the entry with the current parent tags. -/
def update_block_content (db : UserDB) (bid new_content : String) :
    DBResult Unit :=
  match db.blocks.find? (fun b => b.block_id == bid) with
  | none => (Except.error DBError.blockNotFound, db)
  | some cur =>
    (Except.ok (),
     { db with
        blocks := db.blocks.map (fun b =>
          if b.block_id == bid then { b with content := new_content } else b)
        blocks_fts :=
          db.blocks_fts.filter (fun e => !(e.block_id == bid)) ++
            [⟨new_content, bid, cur.page_id, cur.parent_block_id⟩] })

/-- `UserDatabase.update_block_parent`: exactly one of the two new parents
must be supplied, else `ValueError`.  The chosen column is set and the
other nulled, in `blocks` and in `blocks_fts`; a foreign-key violation on
the new parent raises `IntegrityError` before the commit.  The final
`rowcount` check reads the count of the *last* statement (the
`blocks_fts` update), after the commit. -/
def update_block_parent (db : UserDB) (bid : String)
    (new_page_id new_parent_block_id : Option String) : DBResult Unit :=
  match new_page_id, new_parent_block_id with
  | some pid, none =>
    if db.blocks.any (fun b => b.block_id == bid)
        && !(db.pages.any (fun p => p.page_id == pid)) then
      (Except.error DBError.integrityError, db)
    else
      let db' := { db with
        blocks := db.blocks.map (fun b =>
          if b.block_id == bid then
            { b with page_id := some pid, parent_block_id := none }
          else b)
        blocks_fts := db.blocks_fts.map (fun e =>
          if e.block_id == bid then
            { e with page_id := some pid, parent_block_id := none }
          else e) }
      if db.blocks_fts.any (fun e => e.block_id == bid) then (Except.ok (), db')
      else (Except.error DBError.blockNotFound, db')
  | none, some pbid =>
    if db.blocks.any (fun b => b.block_id == bid)
        && !(db.blocks.any (fun b => b.block_id == pbid)) then
      (Except.error DBError.integrityError, db)
    else
      let db' := { db with
        blocks := db.blocks.map (fun b =>
          if b.block_id == bid then
            { b with page_id := none, parent_block_id := some pbid }
          else b)
        blocks_fts := db.blocks_fts.map (fun e =>
          if e.block_id == bid then
            { e with page_id := none, parent_block_id := some pbid }
          else e) }
      if db.blocks_fts.any (fun e => e.block_id == bid) then (Except.ok (), db')
      else (Except.error DBError.blockNotFound, db')
  | _, _ => (Except.error DBError.invalidArgument, db)

-- ## Full-text search

/-- Python `text.split()`: split on runs of whitespace, no empty tokens. -/
def splitWs : List Char → List (List Char)
  | [] => []
  | c :: cs =>
    if c.isWhitespace then splitWs cs
    else
      match splitWs cs with
      | [] => [[c]]
      | t :: ts =>
        match cs with
        | [] => [[c]]
        | c2 :: _ => if c2.isWhitespace then [c] :: t :: ts else (c :: t) :: ts

/-- `t.replace('"', '""')`: double every double quote. -/
def doubleQuotes : List Char → List Char
  | [] => []
  | c :: cs =>
    if c = '\"' then '\"' :: '\"' :: doubleQuotes cs else c :: doubleQuotes cs

/-- `UserDatabase._fts_escape_tokens`: each whitespace token becomes a
quoted literal phrase with a trailing star, joined with spaces. -/
def fts_escape_tokens (text : String) : String :=
  String.intercalate " "
    ((splitWs text.data).map (fun t => "\"" ++ String.mk (doubleQuotes t) ++ "\"*"))

/-- The blank-query guard used by the search functions:
`not query or query.strip() == ""`. -/
def blankQuery (q : String) : Bool :=
  q.isEmpty || ((q.data.dropWhile Char.isWhitespace).reverse.dropWhile
    Char.isWhitespace).isEmpty

/-- `UserDatabase.search_pages`: blank queries return `[]` without
touching storage; otherwise the (possibly escaped) query is matched by
the FTS engine — modelled by the oracle `engineMatch` on the indexed
title — and matching index entries are joined with the `pages` table on
`page_id`, limited to `limit` rows (ranking is engine-defined). -/
def search_pages (db : UserDB) (engineMatch : String → String → Bool)
    (query : String) (limit : Nat) (escape_special_chars : Bool) :
    List PageModel :=
  if blankQuery query then []
  else
    let q := if escape_special_chars then fts_escape_tokens query else query
    (((db.pages_fts.filter (fun e => engineMatch q e.title)).filterMap
      (fun e => db.pages.find? (fun p => p.page_id == e.page_id)))).take limit

/-- `UserDatabase.search_blocks`: same contract over `blocks_fts` joined
with the `blocks` table on `block_id`. -/
def search_blocks (db : UserDB) (engineMatch : String → String → Bool)
    (query : String) (limit : Nat) (escape_special_chars : Bool) :
    List BlockModel :=
  if blankQuery query then []
  else
    let q := if escape_special_chars then fts_escape_tokens query else query
    (((db.blocks_fts.filter (fun e => engineMatch q e.content)).filterMap
      (fun e => db.blocks.find? (fun b => b.block_id == e.block_id)))).take limit

/-- `UserDatabase.search_all`. -/
def search_all (db : UserDB) (engineMatch : String → String → Bool)
    (query : String) (limit : Nat) (escape_special_chars : Bool) :
    List PageModel × List BlockModel :=
  if blankQuery query then ([], [])
  else (search_pages db engineMatch query limit escape_special_chars,
        search_blocks db engineMatch query limit escape_special_chars)

/-- `UserDatabase.rebuild_search`: the FTS5 `rebuild` command repopulates
both indexes from the content tables. -/
def rebuild_search (db : UserDB) : DBResult Unit :=
  (Except.ok (),
   { db with
      pages_fts := db.pages.map (fun p => ⟨p.title, p.page_id⟩)
      blocks_fts := db.blocks.map (fun b =>
        ⟨b.content, b.block_id, b.page_id, b.parent_block_id⟩) })

-- ## Database registry (`SystemDatabase`, sysdb.py)

/-- A row of the `user_databases` registry table (`created_at` omitted). -/
structure UserDatabaseModel where
  id : String
  name : String
  path : String
deriving DecidableEq, Repr

/-- The registry state: the managed root directory (`databases_dir`) and
the `user_databases` table, whose `name` and `path` columns are both
`UNIQUE NOT NULL`. -/
structure SysDB where
  databases_dir : String
  user_databases : List UserDatabaseModel
deriving DecidableEq, Repr

abbrev SysResult (α : Type) := Except DBError α × SysDB

/-- Python single-character `str.replace(a, b)`. -/
def replaceChar (a b : Char) (s : List Char) : List Char :=
  s.map (fun c => if c = a then b else c)

/-- Python `str.replace("..", "_")`: scan left to right; at each position
an occurrence of `".."` is replaced (non-overlapping, skipping past it),
otherwise one character is emitted. -/
def replaceDotDot : List Char → List Char
  | c1 :: c2 :: rest =>
    if c1 = '.' ∧ c2 = '.' then '_' :: replaceDotDot rest
    else c1 :: replaceDotDot (c2 :: rest)
  | l => l

/-- Python `str.lower` (ASCII as in the names handled here). -/
def lowerChars (s : List Char) : List Char :=
  s.map Char.toLower

/-- The path sanitization of `SystemDatabase.add_user_database`:
`name.lower().replace(" ", "_") + ".db"`, then
`.lower().replace("/", "_").replace("\\", "_").replace("..", "_")`. -/
def sanitizedDbFileName (name : String) : String :=
  let path := replaceChar ' ' '_' (lowerChars name.data) ++ ".db".data
  String.mk (replaceDotDot (replaceChar '\\' '_' (replaceChar '/' '_'
    (lowerChars path))))

/-- `os.path.join(dir, p)` for a relative `p` (the sanitized file name
never starts with a separator). -/
def joinPath (dir p : String) : String :=
  dir ++ "/" ++ p

/-- `SystemDatabase.add_user_database`: inserts `(name, full_path)` with a
fresh random id; any sqlite `IntegrityError` — a `UNIQUE` violation on
*either* the name or the derived path column — is caught and re-raised as
`UserDatabaseAlreadyExistsError`. -/
def add_user_database (db : SysDB) (newId name : String) : SysResult Unit :=
  let full_path := joinPath db.databases_dir (sanitizedDbFileName name)
  if db.user_databases.any (fun e =>
      e.name == name || e.path == full_path || e.id == newId) then
    (Except.error DBError.userDatabaseAlreadyExists, db)
  else
    (Except.ok (),
     { db with user_databases := db.user_databases ++ [⟨newId, name, full_path⟩] })

/-- `SystemDatabase.get_user_database_by_name`. -/
def get_user_database_by_name (db : SysDB) (name : String) :
    Except DBError UserDatabaseModel :=
  match db.user_databases.find? (fun e => e.name == name) with
  | some e => Except.ok e
  | none => Except.error DBError.userDatabaseNotFound

/-- `SystemDatabase.get_user_database_by_id`. -/
def get_user_database_by_id (db : SysDB) (dbId : String) :
    Except DBError UserDatabaseModel :=
  match db.user_databases.find? (fun e => e.id == dbId) with
  | some e => Except.ok e
  | none => Except.error DBError.userDatabaseNotFound

/-- `SystemDatabase.update_user_database`: returns immediately — before
any existence check — when neither a new path nor a new name is supplied.
Otherwise: a pre-check re-raises `UserDatabaseAlreadyExistsError` when the
new name belongs to a different entry; the `UPDATE ... WHERE id = ?` is
then executed, a `UNIQUE` violation on the new path (against another row)
raising `IntegrityError` mapped to `UserDatabaseAlreadyExistsError`, and a
zero `rowcount` (checked after the commit) raising
`UserDatabaseNotFoundError`. -/
def update_user_database (db : SysDB) (dbId : String)
    (new_path new_name : Option String) : SysResult Unit :=
  if new_path.isNone && new_name.isNone then (Except.ok (), db)
  else if (match new_name with
    | some n => db.user_databases.any (fun e => e.name == n && e.id != dbId)
    | none => false) then
    (Except.error DBError.userDatabaseAlreadyExists, db)
  else if (match new_path with
    | some p => db.user_databases.any (fun e => e.path == p && e.id != dbId)
        && db.user_databases.any (fun e => e.id == dbId)
    | none => false) then
    (Except.error DBError.userDatabaseAlreadyExists, db)
  else
    let db' := { db with
      user_databases := db.user_databases.map (fun e =>
        if e.id == dbId then
          { e with
            path := new_path.getD e.path
            name := new_name.getD e.name }
        else e) }
    if db.user_databases.any (fun e => e.id == dbId) then (Except.ok (), db')
    else (Except.error DBError.userDatabaseNotFound, db')

/-- `SystemDatabase.delete_user_database`. -/
def delete_user_database (db : SysDB) (dbId : String) : SysResult Unit :=
  let matched := db.user_databases.filter (fun e => e.id == dbId)
  let db' := { db with
    user_databases := db.user_databases.filter (fun e => !(e.id == dbId)) }
  if matched.isEmpty then (Except.error DBError.userDatabaseNotFound, db')
  else (Except.ok (), db')

-- ## Operation sequences over one user database

/-- One call to a mutating operation of `UserDatabase`, with the random
ids sqlite would generate supplied as constructor arguments. -/
inductive Op where
  | addWorkspace (name color : String)
  | updateWorkspace (wid : Nat) (name color : String)
  | deleteWorkspace (wid : Nat)
  | addPage (newId title : String)
  | renamePage (pid new_title : String)
  | deletePage (pid : String)
  | addBlock (newId content : String) (position : Int)
      (page_id parent_block_id : Option String)
  | updateBlockContent (bid new_content : String)
  | updateBlockParent (bid : String) (new_page_id new_parent_block_id : Option String)
  | deleteBlock (bid : String)
  | rebuildSearch
deriving DecidableEq, Repr

/-- The committed state after one operation (whether it succeeded or
raised). -/
def applyOp (db : UserDB) : Op → UserDB
  | Op.addWorkspace name color => (add_workspace db name color).2
  | Op.updateWorkspace wid name color => (update_workspace db wid name color).2
  | Op.deleteWorkspace wid => (delete_workspace db wid).2
  | Op.addPage newId title => (add_page db newId title).2
  | Op.renamePage pid t => (rename_page db pid t).2
  | Op.deletePage pid => (delete_page db pid).2
  | Op.addBlock newId content pos p pb => (add_block db newId content pos p pb).2
  | Op.updateBlockContent bid c => (update_block_content db bid c).2
  | Op.updateBlockParent bid p pb => (update_block_parent db bid p pb).2
  | Op.deleteBlock bid => (delete_block db bid).2
  | Op.rebuildSearch => (rebuild_search db).2

/-- The state after a sequence of operations. -/
def applyOps (db : UserDB) (ops : List Op) : UserDB :=
  ops.foldl applyOp db

/-- States reachable from a freshly initialized database. -/
inductive Reachable : UserDB → Prop
  | init : Reachable initDB
  | step (db : UserDB) (op : Op) : Reachable db → Reachable (applyOp db op)

-- ## Claim C5

/-- C5: a call to `add_block` or `update_block_parent` that supplies zero
of the two parent arguments or two of them fails with `InvalidArgument`
(the `ValueError` branch), with no row inserted or modified and no search
index entry changed: the returned state is exactly the input state. -/
theorem parent_arity_invalid_argument (db : UserDB) (newId content : String)
    (position : Int) (bid pid pbid : String) :
    add_block db newId content position none none =
      (Except.error DBError.invalidArgument, db) ∧
    add_block db newId content position (some pid) (some pbid) =
      (Except.error DBError.invalidArgument, db) ∧
    update_block_parent db bid none none =
      (Except.error DBError.invalidArgument, db) ∧
    update_block_parent db bid (some pid) (some pbid) =
      (Except.error DBError.invalidArgument, db) :=
  ⟨rfl, rfl, rfl, rfl⟩

-- ## Claim C10

/-- C10: `update_user_database` with neither a new name nor a new path
returns successfully and changes nothing, for every registry state —
including states with no entry of the given id: the not-found check is
skipped entirely by the early return. -/
theorem update_user_database_no_fields_skips_all_checks (db : SysDB)
    (dbId : String) :
    update_user_database db dbId none none = (Except.ok (), db) := rfl

-- ## Claim C8

/-- C8: for every store state and every query that is empty or consists
only of whitespace, `search_pages` and `search_blocks` return the empty
list, regardless of the limit, the escape flag, and the match engine. -/
theorem blank_query_returns_empty (db : UserDB)
    (engineMatch : String → String → Bool) (query : String) (limit : Nat)
    (esc : Bool) (h : ∀ c ∈ query.data, c.isWhitespace) :
    search_pages db engineMatch query limit esc = [] ∧
    search_blocks db engineMatch query limit esc = [] := by
  have h1 : query.data.dropWhile Char.isWhitespace = [] :=
    List.dropWhile_eq_nil_iff.mpr h
  have hb : blankQuery query = true := by simp [blankQuery, h1]
  simp [search_pages, search_blocks, hb]

/-- Witness for C8 at a whitespace-only query. -/
theorem blank_query_returns_empty_witness :
    search_pages initDB (fun _ _ => true) " \t " 10 true = [] ∧
    search_blocks initDB (fun _ _ => true) " \t " 10 true = [] :=
  blank_query_returns_empty initDB (fun _ _ => true) " \t " 10 true (by decide)

-- ## Claim C9

/-- C9: `add_block` with exactly one parent argument whose id does not
identify an existing page (resp. block) fails — foreign keys are enforced
— with sqlite's untyped `IntegrityError`, which is none of the documented
kinds, and no block row is inserted: the state is returned unchanged. -/
theorem add_block_dangling_anchor_integrity_error (db : UserDB)
    (newId content : String) (position : Int) (pid pbid : String)
    (hp : db.pages.any (fun p => p.page_id == pid) = false)
    (hb : db.blocks.any (fun b => b.block_id == pbid) = false) :
    add_block db newId content position (some pid) none =
      (Except.error DBError.integrityError, db) ∧
    add_block db newId content position none (some pbid) =
      (Except.error DBError.integrityError, db) ∧
    DBError.integrityError ≠ DBError.pageNotFound ∧
    DBError.integrityError ≠ DBError.blockNotFound ∧
    DBError.integrityError ≠ DBError.pageAlreadyExists ∧
    DBError.integrityError ≠ DBError.invalidArgument := by
  refine ⟨?_, ?_, by decide, by decide, by decide, by decide⟩
  · simp [add_block, hp]
  · simp [add_block, hb]

/-- Witness for C9 on the fresh store, whose pages and blocks tables are
empty. -/
theorem add_block_dangling_anchor_integrity_error_witness :
    add_block initDB "b1" "hello" 0 (some "nopage") none =
      (Except.error DBError.integrityError, initDB) ∧
    add_block initDB "b1" "hello" 0 none (some "noblock") =
      (Except.error DBError.integrityError, initDB) :=
  ⟨(add_block_dangling_anchor_integrity_error initDB "b1" "hello" 0
      "nopage" "noblock" (by decide) (by decide)).1,
   (add_block_dangling_anchor_integrity_error initDB "b1" "hello" 0
      "nopage" "noblock" (by decide) (by decide)).2.1⟩

-- ## Claim C3

/-- C3: `rename_page` fails with `AlreadyExists` when a different page
already has the new title, fails with `NotFound` when (absent such a
conflict) no page has the id, and every failure leaves the store — the
pages table and the `pages_fts` index entry included — exactly as it was:
the returned state equals the input state. -/
theorem rename_page_failure_is_atomic (db : UserDB) (pid new_title : String) :
    (db.pages.any (fun p => p.title == new_title && p.page_id != pid) = true →
      rename_page db pid new_title = (Except.error DBError.pageAlreadyExists, db)) ∧
    (db.pages.any (fun p => p.title == new_title && p.page_id != pid) = false →
      db.pages.all (fun p => p.page_id != pid) = true →
      rename_page db pid new_title = (Except.error DBError.pageNotFound, db)) ∧
    (∀ e db', rename_page db pid new_title = (Except.error e, db') → db' = db) := by
  refine ⟨?_, ?_, ?_⟩
  · intro h; simp [rename_page, h]
  · intro h1 h2; simp [rename_page, h1, h2]
  · intro e db' h
    unfold rename_page at h
    split at h
    · exact (congrArg Prod.snd h).symm
    · split at h
      · exact (congrArg Prod.snd h).symm
      · exact absurd (congrArg Prod.fst h) (by simp)

-- ## Claim C4

/-- The core block invariant: every block has exactly one of `page_id`
and `parent_block_id` non-null (the schema `CHECK` constraint). -/
def BlocksXor (db : UserDB) : Bool :=
  db.blocks.all (fun b => b.page_id.isSome != b.parent_block_id.isSome)

theorem blocksXor_of_forall (db : UserDB)
    (h : ∀ b ∈ db.blocks, (b.page_id.isSome != b.parent_block_id.isSome) = true) :
    BlocksXor db = true := List.all_eq_true.mpr h

theorem forall_of_blocksXor (db : UserDB) (h : BlocksXor db = true) :
    ∀ b ∈ db.blocks, (b.page_id.isSome != b.parent_block_id.isSome) = true :=
  List.all_eq_true.mp h

/-- Every single operation preserves the exactly-one-parent invariant,
whether it succeeds or fails. -/
theorem blocksXor_applyOp (db : UserDB) (op : Op) (h : BlocksXor db = true) :
    BlocksXor (applyOp db op) = true := by
  have hmem := forall_of_blocksXor db h
  cases op with
  | addWorkspace name color => exact h
  | updateWorkspace wid name color =>
    simp only [applyOp, update_workspace]
    split <;> exact h
  | deleteWorkspace wid =>
    simp only [applyOp, delete_workspace]
    split <;> exact h
  | addPage newId title =>
    simp only [applyOp, add_page]
    split
    · exact h
    · split <;> exact h
  | renamePage pid t =>
    simp only [applyOp, rename_page]
    split
    · exact h
    · split <;> exact h
  | deletePage pid =>
    simp only [applyOp, delete_page]
    split
    · exact blocksXor_of_forall _ (fun b hb =>
        hmem b (List.mem_of_mem_filter hb))
    · exact h
  | addBlock newId content pos p pb =>
    rcases p with _ | pid <;> rcases pb with _ | pbid
    · exact h
    · simp only [applyOp, add_block, apply_ite Prod.snd]
      split
      · refine blocksXor_of_forall _ (fun b hb => ?_)
        rcases List.mem_append.mp hb with hb2 | hb2
        · exact hmem b hb2
        · simp at hb2
          subst hb2
          rfl
      · exact h
    · simp only [applyOp, add_block, apply_ite Prod.snd]
      split
      · refine blocksXor_of_forall _ (fun b hb => ?_)
        rcases List.mem_append.mp hb with hb2 | hb2
        · exact hmem b hb2
        · simp at hb2
          subst hb2
          rfl
      · exact h
    · exact h
  | updateBlockContent bid c =>
    simp only [applyOp, update_block_content]
    split
    · exact h
    · refine blocksXor_of_forall _ (fun b hb => ?_)
      rcases List.mem_map.mp hb with ⟨a, ha, hfa⟩
      by_cases hid : (a.block_id == bid) = true
      · rw [if_pos hid] at hfa
        subst hfa
        exact hmem a ha
      · rw [if_neg hid] at hfa
        subst hfa
        exact hmem a ha
  | updateBlockParent bid p pb =>
    rcases p with _ | pid <;> rcases pb with _ | pbid
    · exact h
    · simp only [applyOp, update_block_parent, apply_ite Prod.snd, ite_self]
      split
      · exact h
      · refine blocksXor_of_forall _ (fun b hb => ?_)
        rcases List.mem_map.mp (by exact hb) with ⟨a, ha, hfa⟩
        by_cases hid : (a.block_id == bid) = true
        · rw [if_pos hid] at hfa; subst hfa; rfl
        · rw [if_neg hid] at hfa; subst hfa; exact hmem a ha
    · simp only [applyOp, update_block_parent, apply_ite Prod.snd, ite_self]
      split
      · exact h
      · refine blocksXor_of_forall _ (fun b hb => ?_)
        rcases List.mem_map.mp (by exact hb) with ⟨a, ha, hfa⟩
        by_cases hid : (a.block_id == bid) = true
        · rw [if_pos hid] at hfa; subst hfa; rfl
        · rw [if_neg hid] at hfa; subst hfa; exact hmem a ha
    · exact h
  | deleteBlock bid =>
    simp only [applyOp, delete_block]
    split
    · exact blocksXor_of_forall _ (fun b hb =>
        hmem b (List.mem_of_mem_filter hb))
    · exact h
  | rebuildSearch => exact h

/-- C4: after every sequence of operations starting from a state
satisfying the exactly-one-parent invariant, every block still has
exactly one of `page_id`/`parent_block_id` non-null; and a successful
`update_block_parent` sets the chosen parent column and nulls the other
on the targeted block. -/
theorem exactly_one_parent_invariant :
    (∀ (db : UserDB) (ops : List Op), BlocksXor db = true →
      BlocksXor (applyOps db ops) = true) ∧
    (∀ (db : UserDB) (bid pid : String) (db' : UserDB),
      update_block_parent db bid (some pid) none = (Except.ok (), db') →
      ∀ b ∈ db'.blocks, b.block_id = bid →
        b.page_id = some pid ∧ b.parent_block_id = none) ∧
    (∀ (db : UserDB) (bid pbid : String) (db' : UserDB),
      update_block_parent db bid none (some pbid) = (Except.ok (), db') →
      ∀ b ∈ db'.blocks, b.block_id = bid →
        b.page_id = none ∧ b.parent_block_id = some pbid) := by
  refine ⟨?_, ?_, ?_⟩
  · intro db ops h
    induction ops generalizing db with
    | nil => exact h
    | cons op rest ih => exact ih (applyOp db op) (blocksXor_applyOp db op h)
  · intro db bid pid db' hok b hb hbid
    simp only [update_block_parent] at hok
    split at hok
    · exact absurd (congrArg Prod.fst hok) (by simp)
    · split at hok
      · rw [Prod.mk.injEq] at hok
        rw [← hok.2] at hb
        rcases List.mem_map.mp hb with ⟨a, _, hfa⟩
        by_cases hid : (a.block_id == bid) = true
        · rw [if_pos hid] at hfa; subst hfa; exact ⟨rfl, rfl⟩
        · rw [if_neg hid] at hfa
          subst hfa
          exact absurd (beq_iff_eq.mpr hbid) hid
      · exact absurd (congrArg Prod.fst hok) (by simp)
  · intro db bid pbid db' hok b hb hbid
    simp only [update_block_parent] at hok
    split at hok
    · exact absurd (congrArg Prod.fst hok) (by simp)
    · split at hok
      · rw [Prod.mk.injEq] at hok
        rw [← hok.2] at hb
        rcases List.mem_map.mp hb with ⟨a, _, hfa⟩
        by_cases hid : (a.block_id == bid) = true
        · rw [if_pos hid] at hfa; subst hfa; exact ⟨rfl, rfl⟩
        · rw [if_neg hid] at hfa
          subst hfa
          exact absurd (beq_iff_eq.mpr hbid) hid
      · exact absurd (congrArg Prod.fst hok) (by simp)

/-- Witness for C4: a concrete run — create a page, a root block, a
nested block, re-parent it, delete a block — keeps the invariant. -/
theorem exactly_one_parent_invariant_witness :
    BlocksXor (applyOps initDB
      [Op.addPage "p1" "T", Op.addBlock "b1" "c" 0 (some "p1") none,
       Op.addBlock "b2" "d" 0 none (some "b1"),
       Op.updateBlockParent "b2" (some "p1") none,
       Op.deleteBlock "b1"]) = true :=
  exactly_one_parent_invariant.1 initDB
    [Op.addPage "p1" "T", Op.addBlock "b1" "c" 0 (some "p1") none,
     Op.addBlock "b2" "d" 0 none (some "b1"),
     Op.updateBlockParent "b2" (some "p1") none,
     Op.deleteBlock "b1"] (by decide)

-- ## Claim C7

/-- The accumulator never exceeds the running maximum of workspace ids. -/
theorem acc_le_foldl_max (ws : List WorkspaceModel) (acc : Nat) :
    acc ≤ ws.foldl (fun m w => max m w.workspace_id) acc := by
  induction ws generalizing acc with
  | nil => exact Nat.le_refl acc
  | cons a l ih =>
    exact Nat.le_trans (Nat.le_max_left acc a.workspace_id)
      (ih (max acc a.workspace_id))

/-- Every stored workspace id is bounded by the running maximum. -/
theorem mem_le_foldl_max (ws : List WorkspaceModel) (acc : Nat)
    (w : WorkspaceModel) (hw : w ∈ ws) :
    w.workspace_id ≤ ws.foldl (fun m w => max m w.workspace_id) acc := by
  induction ws generalizing acc with
  | nil => exact absurd hw (List.not_mem_nil w)
  | cons a l ih =>
    rcases List.mem_cons.mp hw with h | h
    · subst h
      exact Nat.le_trans (Nat.le_max_right acc w.workspace_id)
        (acc_le_foldl_max l (max acc w.workspace_id))
    · exact ih (max acc a.workspace_id) h

/-- The workspaces table invariant: rows are stored in strictly
increasing `workspace_id` (rowid b-tree) order. -/
def WsSorted (db : UserDB) : Prop :=
  List.Pairwise (fun a b => a.workspace_id < b.workspace_id) db.workspaces

/-- Every operation preserves the strictly increasing storage order of
the workspaces table: inserts append a fresh maximal id, updates keep
ids, deletes filter, and nothing else touches the table. -/
theorem wsSorted_applyOp (db : UserDB) (op : Op) (h : WsSorted db) :
    WsSorted (applyOp db op) := by
  cases op with
  | addWorkspace name color =>
    refine List.pairwise_append.mpr ⟨h, List.pairwise_singleton _ _, ?_⟩
    intro a ha b hb
    have hb2 : b = ⟨nextWorkspaceId db.workspaces, name, stripHash color⟩ :=
      List.mem_singleton.mp hb
    subst hb2
    exact Nat.lt_succ_of_le (mem_le_foldl_max db.workspaces 0 a ha)
  | updateWorkspace wid name color =>
    simp only [applyOp, update_workspace, apply_ite Prod.snd, ite_self]
    refine List.pairwise_map.mpr (List.Pairwise.imp ?_ h)
    intro a b hab
    have ha : ∀ w : WorkspaceModel,
        ((if w.workspace_id == wid then
            { w with name := name, color := stripHash color } else w)).workspace_id
          = w.workspace_id := by
      intro w; split <;> rfl
    rw [ha a, ha b]
    exact hab
  | deleteWorkspace wid =>
    simp only [applyOp, delete_workspace, apply_ite Prod.snd, ite_self]
    exact List.Pairwise.filter _ h
  | addPage newId title =>
    simp only [applyOp, add_page, apply_ite Prod.snd]
    split
    · exact h
    · split <;> exact h
  | renamePage pid t =>
    simp only [applyOp, rename_page, apply_ite Prod.snd]
    split
    · exact h
    · split <;> exact h
  | deletePage pid =>
    simp only [applyOp, delete_page, apply_ite Prod.snd]
    split <;> exact h
  | addBlock newId content pos p pb =>
    rcases p with _ | pid <;> rcases pb with _ | pbid
    · exact h
    · simp only [applyOp, add_block, apply_ite Prod.snd]
      split <;> exact h
    · simp only [applyOp, add_block, apply_ite Prod.snd]
      split <;> exact h
    · exact h
  | updateBlockContent bid c =>
    simp only [applyOp, update_block_content]
    split <;> exact h
  | updateBlockParent bid p pb =>
    rcases p with _ | pid <;> rcases pb with _ | pbid
    · exact h
    · simp only [applyOp, update_block_parent, apply_ite Prod.snd, ite_self]
      split <;> exact h
    · simp only [applyOp, update_block_parent, apply_ite Prod.snd, ite_self]
      split <;> exact h
    · exact h
  | deleteBlock bid =>
    simp only [applyOp, delete_block, apply_ite Prod.snd]
    split <;> exact h
  | rebuildSearch => exact h

/-- C7: in every reachable store state, `get_workspaces` returns exactly
the workspaces table, and its rows are in strictly ascending
`workspace_id` order (the `SELECT` scans the rowid b-tree, and the table
order is an invariant of all operations). -/
theorem get_workspaces_ordered_ascending (db : UserDB) (h : Reachable db) :
    get_workspaces db = db.workspaces ∧
    List.Pairwise (fun a b => a.workspace_id < b.workspace_id)
      (get_workspaces db) := by
  refine ⟨rfl, ?_⟩
  show WsSorted db
  induction h with
  | init => exact List.pairwise_singleton _ _
  | step db0 op _ ih => exact wsSorted_applyOp db0 op ih

/-- Witness for C7: the state after one explicit `add_workspace` on the
fresh store is reachable and listed in ascending id order. -/
theorem get_workspaces_ordered_ascending_witness :
    get_workspaces (applyOp initDB (Op.addWorkspace "W" "#ffffff")) =
      (applyOp initDB (Op.addWorkspace "W" "#ffffff")).workspaces ∧
    List.Pairwise (fun a b => a.workspace_id < b.workspace_id)
      (get_workspaces (applyOp initDB (Op.addWorkspace "W" "#ffffff"))) :=
  get_workspaces_ordered_ascending _
    (Reachable.step initDB (Op.addWorkspace "W" "#ffffff") Reachable.init)

-- ## Claim C2

/-- The dead set only grows during the cascade. -/
theorem subset_collectDeadAux (fuel : Nat) (pool : List BlockModel)
    (dead : List String) : dead ⊆ collectDeadAux fuel pool dead := by
  induction fuel generalizing pool dead with
  | zero => exact List.Subset.refl dead
  | succ fuel ih =>
    rw [collectDeadAux]
    split
    · exact List.Subset.refl dead
    · exact List.Subset.trans (List.subset_append_left _ _) (ih _ _)

/-- The cascade result is closed under parenthood: a block of the pool
whose parent ends up dead is itself dead, provided the fuel covers the
pool (each productive round strictly shrinks the pool). -/
theorem collectDeadAux_closed (fuel : Nat) :
    ∀ (pool : List BlockModel) (dead : List String),
      pool.length ≤ fuel →
      ∀ b ∈ pool, ∀ pb, b.parent_block_id = some pb →
        pb ∈ collectDeadAux fuel pool dead →
        b.block_id ∈ collectDeadAux fuel pool dead := by
  induction fuel with
  | zero =>
    intro pool dead hlen b hb
    rw [List.length_eq_zero.mp (Nat.le_zero.mp hlen)] at hb
    exact absurd hb (List.not_mem_nil b)
  | succ fuel ih =>
    intro pool dead hlen b hb pb hpar hdead
    by_cases hmv : (pool.filter (fun x => parentDead dead x)).isEmpty = true
    · rw [collectDeadAux, if_pos hmv] at hdead ⊢
      have hpd : parentDead dead b = true := by
        simp only [parentDead, hpar]
        simpa using hdead
      have hbmem : b ∈ pool.filter (fun x => parentDead dead x) :=
        List.mem_filter.mpr ⟨hb, hpd⟩
      rw [List.isEmpty_iff.mp hmv] at hbmem
      exact absurd hbmem (List.not_mem_nil b)
    · rw [collectDeadAux, if_neg hmv] at hdead ⊢
      have hsplit : pool.length =
          (pool.filter (fun x => parentDead dead x)).length +
            (pool.filter (fun x => !parentDead dead x)).length :=
        List.length_eq_length_filter_add _
      have hmoved : (pool.filter (fun x => parentDead dead x)).length ≠ 0 := by
        intro h0
        exact hmv (List.isEmpty_iff.mpr (List.length_eq_zero.mp h0))
      have hlen2 : (pool.filter (fun x => !parentDead dead x)).length ≤ fuel := by
        omega
      by_cases hpd : parentDead dead b = true
      · refine subset_collectDeadAux fuel _ _ ?_
        refine List.mem_append.mpr (Or.inr ?_)
        exact List.mem_map_of_mem (fun x => x.block_id)
          (List.mem_filter.mpr ⟨hb, hpd⟩)
      · refine ih _ _ hlen2 b ?_ pb hpar hdead
        refine List.mem_filter.mpr ⟨hb, ?_⟩
        simp [hpd]

/-- A block is anchored — directly or through a `parent_block_id` chain
of any depth — to the page `pid`. -/
inductive ReachesPage (bs : List BlockModel) (pid : String) : BlockModel → Prop
  | root (b : BlockModel) (hmem : b ∈ bs) (hpage : b.page_id = some pid) :
      ReachesPage bs pid b
  | child (b p : BlockModel) (hmem : b ∈ bs)
      (hpar : b.parent_block_id = some p.block_id)
      (hp : ReachesPage bs pid p) : ReachesPage bs pid b

/-- Every block anchored to the page lands in the cascade's dead set. -/
theorem reachesPage_mem_collectDead (bs : List BlockModel) (pid : String)
    (b : BlockModel) (h : ReachesPage bs pid b) :
    b.block_id ∈ collectDead bs
      ((bs.filter (fun x => x.page_id == some pid)).map (fun x => x.block_id)) := by
  induction h with
  | root b hmem hpage =>
    refine subset_collectDeadAux _ _ _ ?_
    refine List.mem_map_of_mem (fun x : BlockModel => x.block_id) ?_
    refine List.mem_filter.mpr ⟨hmem, ?_⟩
    simp [hpage]
  | child b p hmem hpar _ ih =>
    exact collectDeadAux_closed bs.length bs _ (Nat.le_refl _) b hmem
      p.block_id hpar ih

/-- C2: a successful `delete_page` removes every block anchored to the
page — its root blocks and, recursively along `parent_block_id` chains of
any depth, all nested blocks — from primary storage: `get_block` on any
of them fails with `NotFound` afterwards. -/
theorem delete_page_cascades_all_depths (db : UserDB) (pid : String)
    (hok : (delete_page db pid).1 = Except.ok ())
    (b : BlockModel) (hr : ReachesPage db.blocks pid b) :
    get_block_content_by_id (delete_page db pid).2 b.block_id =
      Except.error DBError.blockNotFound := by
  have hcond : db.pages.any (fun p => p.page_id == pid) = true := by
    by_contra hc
    rw [Bool.not_eq_true] at hc
    simp [delete_page, hc] at hok
  simp only [delete_page, hcond, if_true]
  rw [get_block_content_by_id]
  rw [List.find?_eq_none.mpr]
  intro x hx
  rcases List.mem_filter.mp hx with ⟨_, hcondx⟩
  rw [Bool.and_eq_true] at hcondx
  rcases hcondx with ⟨_, hnotdead⟩
  intro hxb
  have hbdead := reachesPage_mem_collectDead db.blocks pid b hr
  have : (collectDead db.blocks
      ((db.blocks.filter (fun y => y.page_id == some pid)).map
        (fun y => y.block_id))).contains x.block_id = true := by
    rw [show x.block_id = b.block_id from by simpa using hxb]
    simpa using hbdead
  rw [this] at hnotdead
  exact absurd hnotdead (by decide)

/-- A concrete store for the C2 witness: page `p` with root block `a`
and nested block `b` under `a`. -/
def dbC2 : UserDB :=
  { workspaces := [⟨0, "Default", "4285F4"⟩]
    pages := [⟨"p", "P"⟩]
    blocks := [⟨"a", "alpha", some "p", none, 0⟩, ⟨"b", "beta", none, some "a", 0⟩]
    pages_fts := [⟨"P", "p"⟩]
    blocks_fts := [⟨"alpha", "a", some "p", none⟩, ⟨"beta", "b", none, some "a"⟩] }

/-- Witness for C2: after `delete_page` of `p`, `get_block` of the nested
block `b` (reached through root block `a`) fails with `NotFound`. -/
theorem delete_page_cascades_all_depths_witness :
    get_block_content_by_id (delete_page dbC2 "p").2 "b" =
      Except.error DBError.blockNotFound :=
  delete_page_cascades_all_depths dbC2 "p" rfl ⟨"b", "beta", none, some "a", 0⟩
    (ReachesPage.child _ ⟨"a", "alpha", some "p", none, 0⟩ (by decide) rfl
      (ReachesPage.root _ (by decide) rfl))

-- ## Claim C6

/-- Whether a character list contains two consecutive dots (a
path-traversal sequence). -/
def hasDotDot : List Char → Bool
  | c1 :: c2 :: rest => (c1 = '.' && c2 = '.') || hasDotDot (c2 :: rest)
  | _ => false

theorem hasDotDot_cons_of_ne (c : Char) (l : List Char) (hc : c ≠ '.') :
    hasDotDot (c :: l) = hasDotDot l := by
  cases l with
  | nil => rfl
  | cons a l2 => simp [hasDotDot, hc]

theorem replaceDotDot_cons_of_ne (c : Char) (l : List Char) (hc : c ≠ '.') :
    replaceDotDot (c :: l) = c :: replaceDotDot l := by
  cases l with
  | nil => rfl
  | cons a l2 =>
    rw [replaceDotDot, if_neg]
    intro h
    exact hc h.1

/-- The output of the `".."` replacement never contains `".."`. -/
theorem hasDotDot_replaceDotDot (s : List Char) :
    hasDotDot (replaceDotDot s) = false := by
  induction s using replaceDotDot.induct with
  | case1 c1 c2 rest h ih =>
    rw [replaceDotDot, if_pos h, hasDotDot_cons_of_ne _ _ (by decide)]
    exact ih
  | case2 c1 c2 rest h ih =>
    rw [replaceDotDot, if_neg h]
    by_cases hc1 : c1 = '.'
    · have hc2 : c2 ≠ '.' := fun hc2 => h ⟨hc1, hc2⟩
      rw [replaceDotDot_cons_of_ne c2 rest hc2] at ih ⊢
      subst hc1
      simpa [hasDotDot, hc2] using ih
    · rw [hasDotDot_cons_of_ne _ _ hc1]
      exact ih
  | case3 l hshape =>
    rcases l with _ | ⟨c1, _ | ⟨c2, rest⟩⟩
    · rfl
    · rfl
    · exact absurd rfl (hshape c1 c2 rest)

/-- Every character of the `".."` replacement output comes from the input
or is the replacement underscore. -/
theorem mem_replaceDotDot (c : Char) (s : List Char) (h : c ∈ replaceDotDot s) :
    c ∈ s ∨ c = '_' := by
  induction s using replaceDotDot.induct with
  | case1 c1 c2 rest hdots ih =>
    rw [replaceDotDot, if_pos hdots] at h
    rcases List.mem_cons.mp h with h2 | h2
    · right; exact h2
    · rcases ih h2 with h3 | h3
      · left; simp [h3]
      · right; exact h3
  | case2 c1 c2 rest hdots ih =>
    rw [replaceDotDot, if_neg hdots] at h
    rcases List.mem_cons.mp h with h2 | h2
    · left; simp [h2]
    · rcases ih h2 with h3 | h3
      · left; simp [List.mem_cons.mp h3]
      · right; exact h3
  | case3 l hshape =>
    rcases l with _ | ⟨c1, _ | ⟨c2, rest⟩⟩
    · left; exact h
    · left; exact h
    · exact absurd rfl (hshape c1 c2 rest)

theorem not_mem_replaceChar (a b : Char) (s : List Char) (hab : a ≠ b) :
    a ∉ replaceChar a b s := by
  intro h
  rcases List.mem_map.mp h with ⟨x, _, hx⟩
  by_cases hxa : x = a
  · rw [if_pos hxa] at hx; exact hab hx.symm
  · rw [if_neg hxa] at hx; exact hxa hx

theorem mem_replaceChar (c a b : Char) (s : List Char)
    (h : c ∈ replaceChar a b s) : c ∈ s ∨ c = b := by
  rcases List.mem_map.mp h with ⟨x, hmem, hx⟩
  by_cases hxa : x = a
  · rw [if_pos hxa] at hx; right; exact hx.symm
  · rw [if_neg hxa] at hx; left; exact hx ▸ hmem

/-- C6 (amended): `add_user_database` fails with `AlreadyExists` whenever
the uniqueness of the name **or of the derived sanitized path** (or of
the generated id) is violated — not only when the name is taken — and
otherwise stores the sanitized path: lowercased, spaces, forward and back
slashes and `".."` sequences replaced, directly under the managed root
directory. -/
theorem add_user_database_sanitizes_and_rejects_conflicts (db : SysDB)
    (newId name : String) :
    (db.user_databases.any (fun e =>
        e.name == name ||
        e.path == joinPath db.databases_dir (sanitizedDbFileName name) ||
        e.id == newId) = true →
      add_user_database db newId name =
        (Except.error DBError.userDatabaseAlreadyExists, db)) ∧
    (db.user_databases.any (fun e =>
        e.name == name ||
        e.path == joinPath db.databases_dir (sanitizedDbFileName name) ||
        e.id == newId) = false →
      add_user_database db newId name =
        (Except.ok (),
         { db with user_databases := db.user_databases ++
            [⟨newId, name, joinPath db.databases_dir (sanitizedDbFileName name)⟩] })) ∧
    '/' ∉ (sanitizedDbFileName name).data ∧
    '\\' ∉ (sanitizedDbFileName name).data ∧
    hasDotDot (sanitizedDbFileName name).data = false := by
  refine ⟨?_, ?_, ?_, ?_, ?_⟩
  · intro h; simp only [add_user_database, h]; rfl
  · intro h; simp only [add_user_database, h]; rfl
  · intro h
    rcases mem_replaceDotDot _ _ h with h2 | h2
    · rcases mem_replaceChar _ _ _ _ h2 with h3 | h3
      · exact not_mem_replaceChar '/' '_' _ (by decide) h3
      · exact absurd h3 (by decide)
    · exact absurd h2 (by decide)
  · intro h
    rcases mem_replaceDotDot _ _ h with h2 | h2
    · exact not_mem_replaceChar '\\' '_' _ (by decide) h2
    · exact absurd h2 (by decide)
  · exact hasDotDot_replaceDotDot _

/-- A registry state refuting C6 as stated: entry `A` occupies the path
that the name `a` sanitizes to. -/
def sysDbC6 : SysDB :=
  { databases_dir := "root"
    user_databases := [⟨"i1", "A", "root/a.db"⟩] }

/-- Counterexample to C6 as stated: no entry has the name `a`, yet
`add_user_database` fails with `AlreadyExists` (the sanitized path of `a`
collides with the path stored for `A`), so "fails `AlreadyExists` only
when the name is taken, otherwise stores" is false on the code. -/
theorem add_user_database_name_free_still_conflicts :
    sysDbC6.user_databases.all (fun e => e.name != "a") = true ∧
    add_user_database sysDbC6 "i2" "a" =
      (Except.error DBError.userDatabaseAlreadyExists, sysDbC6) :=
  ⟨rfl, rfl⟩

/-- Witness for the amended C6: on an empty registry the insertion
succeeds and stores the sanitized path under the managed root. -/
theorem add_user_database_sanitizes_and_rejects_conflicts_witness :
    add_user_database ⟨"root", []⟩ "i1" "My Notes/../x" =
      (Except.ok (),
       ⟨"root", [⟨"i1", "My Notes/../x", "root/my_notes___x.db"⟩]⟩) ∧
    '/' ∉ (sanitizedDbFileName "My Notes/../x").data := by
  constructor
  · have h := (add_user_database_sanitizes_and_rejects_conflicts
      ⟨"root", []⟩ "i1" "My Notes/../x").2.1 (by decide)
    rw [h]
    rfl
  · exact (add_user_database_sanitizes_and_rejects_conflicts
      ⟨"root", []⟩ "i1" "My Notes/../x").2.2.1

-- ## Claim C1

/-- Every result of `search_blocks` is a row of the `blocks` table: the
query joins `blocks_fts` hits with `blocks` on `block_id`. -/
theorem mem_blocks_of_mem_search_blocks (db : UserDB)
    (m : String → String → Bool) (q : String) (lim : Nat) (esc : Bool)
    (r : BlockModel) (h : r ∈ search_blocks db m q lim esc) : r ∈ db.blocks := by
  unfold search_blocks at h
  split at h
  · exact absurd h (List.not_mem_nil r)
  · rcases List.mem_filterMap.mp (List.mem_of_mem_take h) with ⟨e, _, hfind⟩
    exact List.mem_of_find?_eq_some hfind

/-- A store refuting C1 as stated: page `p` has root block `a` with
nested block `b`, and both blocks are indexed in `blocks_fts`. -/
def dbC1 : UserDB :=
  { workspaces := [⟨0, "Default", "4285F4"⟩]
    pages := [⟨"p", "Page"⟩]
    blocks := [⟨"a", "alpha", some "p", none, 0⟩, ⟨"b", "beta", none, some "a", 0⟩]
    pages_fts := [⟨"Page", "p"⟩]
    blocks_fts := [⟨"alpha", "a", some "p", none⟩, ⟨"beta", "b", none, some "a"⟩] }

/-- Counterexample to C1 as stated: `delete_page` succeeds and the
cascade removes block `b` from the `blocks` table, yet the `blocks_fts`
entry of `b` is **not** removed — the cascade never touches the blocks
search index. -/
theorem delete_page_leaves_descendant_index_entries :
    (delete_page dbC1 "p").1 = Except.ok () ∧
    ((delete_page dbC1 "p").2).blocks.any (fun b => b.block_id == "b") = false ∧
    ((delete_page dbC1 "p").2).blocks_fts.any (fun e => e.block_id == "b") = true :=
  ⟨rfl, rfl, rfl⟩

/-- C1 (amended): cascading deletes remove every cascaded block from the
`blocks` table but only the directly-named entity's index entry
(`delete_page` removes none of `blocks_fts`, `delete_block` removes only
the named block's entry, so descendants' entries survive); nevertheless,
because `search_blocks` joins the index with the `blocks` table, no
removed block is ever returned by `search_blocks` after the operation. -/
theorem cascade_delete_search_consistency (db : UserDB) (pid bid : String)
    (m : String → String → Bool) (q : String) (lim : Nat) (esc : Bool) :
    ((delete_page db pid).2.blocks_fts = db.blocks_fts) ∧
    ((delete_block db bid).2.blocks_fts =
      db.blocks_fts.filter (fun e => !(e.block_id == bid))) ∧
    (∀ b ∈ db.blocks,
      b.block_id ∉ ((delete_page db pid).2.blocks.map (fun x => x.block_id)) →
      ∀ r ∈ search_blocks (delete_page db pid).2 m q lim esc,
        r.block_id ≠ b.block_id) ∧
    (∀ b ∈ db.blocks,
      b.block_id ∉ ((delete_block db bid).2.blocks.map (fun x => x.block_id)) →
      ∀ r ∈ search_blocks (delete_block db bid).2 m q lim esc,
        r.block_id ≠ b.block_id) := by
  refine ⟨?_, ?_, ?_, ?_⟩
  · unfold delete_page; split <;> rfl
  · unfold delete_block; split <;> rfl
  · intro b _ hgone r hr heq
    exact hgone (heq ▸ List.mem_map_of_mem (fun x => x.block_id)
      (mem_blocks_of_mem_search_blocks _ m q lim esc r hr))
  · intro b _ hgone r hr heq
    exact hgone (heq ▸ List.mem_map_of_mem (fun x => x.block_id)
      (mem_blocks_of_mem_search_blocks _ m q lim esc r hr))

/-- Witness for the amended C1: on the concrete store, block `b` is
cascaded away by `delete_page` and no search result can carry its id. -/
theorem cascade_delete_search_consistency_witness :
    ∀ r ∈ search_blocks (delete_page dbC1 "p").2 (fun _ _ => true) "beta" 10 true,
      r.block_id ≠ "b" :=
  (cascade_delete_search_consistency dbC1 "p" "x" (fun _ _ => true) "beta" 10
      true).2.2.1 ⟨"b", "beta", none, some "a", 0⟩ (by simp [dbC1]) (by decide)

/-- Witness for C3: renaming onto a title held by a different page fails
with `AlreadyExists` and returns the store unchanged. -/
theorem rename_page_failure_is_atomic_witness :
    rename_page
      { initDB with pages := [⟨"p1", "A"⟩, ⟨"p2", "B"⟩] } "p1" "B" =
    (Except.error DBError.pageAlreadyExists,
      { initDB with pages := [⟨"p1", "A"⟩, ⟨"p2", "B"⟩] }) :=
  (rename_page_failure_is_atomic
    { initDB with pages := [⟨"p1", "A"⟩, ⟨"p2", "B"⟩] } "p1" "B").1 (by decide)


